import Mathlib

/-!
# Verification of the Wick strategy-graph compiler

A shallow embedding of `frontend/src/utils/codeGenerator.ts`
(`generateStrategyCode` and its helper closures).  The TypeScript code emits
Python source text for the `backtesting.py` library; here the emitted text is
represented by small ASTs (`Expr` for scalar expressions such as
`self.data.Close[-1]`, `Cond` for boolean conditions, `InitEntry` for the
`init()` lines, `NextStmt`/chains for the `next()` body), together with
evaluators giving the emitted code its runtime meaning over an abstract
data environment `Series → Int → ℚ`.

JavaScript `x || d` defaults (which replace *falsy* values, so `0` and `""`
also fall back to `d`) are modelled by the `jsOr*` helpers.
-/

namespace Wick

/-- JS `x || d` for optional strings: `undefined` and `""` fall back. -/
def jsOrStr (x : Option String) (d : String) : String :=
  match x with
  | none => d
  | some s => if s = "" then d else s

/-- JS `x || d` for optional naturals: `undefined` and `0` fall back. -/
def jsOrNat (x : Option Nat) (d : Nat) : Nat :=
  match x with
  | none => d
  | some v => if v = 0 then d else v

/-- JS `x || d` for optional integers: `undefined` and `0` fall back. -/
def jsOrInt (x : Option Int) (d : Int) : Int :=
  match x with
  | none => d
  | some v => if v = 0 then d else v

/-- JS `x || d` for optional rationals: `undefined` and `0` fall back. -/
def jsOrQ (x : Option ℚ) (d : ℚ) : ℚ :=
  match x with
  | none => d
  | some v => if v = 0 then d else v

/-- JS `s.toLowerCase()` on ASCII labels (structural, over the character
list). -/
def toLowerStr (s : String) : String := String.mk (s.data.map Char.toLower)

/-- JS `label.split(' ')[0]`: the characters before the first space. -/
def headWord (s : String) : String :=
  String.mk (s.data.takeWhile (fun c => c ≠ ' '))

/-- Whether the first list is a prefix of the second list (character lists). -/
def charsHasPre : List Char → List Char → Bool
  | [], _ => true
  | _ :: _, [] => false
  | a :: as, b :: bs => a == b && charsHasPre as bs

/-- Whether `needle` occurs as a contiguous sublist. -/
def charsHasSub (needle : List Char) : List Char → Bool
  | [] => needle.isEmpty
  | c :: cs => charsHasPre needle (c :: cs) || charsHasSub needle cs

/-- JS `hay.includes(needle)` (substring test). -/
def strHasSub (hay needle : String) : Bool :=
  charsHasSub needle.toList hay.toList

/-! ## The graph data model (mirrors the `@xyflow/react` node/edge records
as read by `generateStrategyCode`). -/

/-- Kind-specific `node.data.config` fields read by the generator. All are
optional; the generator applies JS `||` defaults at each read site. -/
structure Config where
  period : Option Nat := none
  kPeriod : Option Nat := none
  dPeriod : Option Nat := none
  fast : Option Nat := none
  slow : Option Nat := none
  signal : Option Nat := none
  std : Option Nat := none
  /-- exit basis: `"percent"`, `"fixed"` or `"atr"` (`config.type`). -/
  type : Option String := none
  value : Option ℚ := none
  multiplier : Option ℚ := none
  orderType : Option String := none
  amount : Option ℚ := none
deriving DecidableEq, Repr

/-- Fields of `node.data` as read by the generator. -/
structure NodeData where
  label : String
  comparison : Option String := none
  compareValue : Option ℚ := none
  barOffset : Option Int := none
  lookback : Option Int := none
  config : Config := {}
deriving DecidableEq, Repr

/-- A graph node: `id`, `type` tag (`"price"`, `"indicator"`, `"logic"`,
`"value"`, `"action"`, `"exit"`), and its data. -/
structure Node where
  id : String
  type : String
  data : NodeData
deriving DecidableEq, Repr

/-- A graph edge; `targetHandle = some "compare-input"` marks a
compare-operand edge, anything else is a flow edge. -/
structure Edge where
  source : String
  target : String
  targetHandle : Option String := none
deriving DecidableEq, Repr

/-- The input graph. -/
structure Graph where
  nodes : List Node
  edges : List Edge
deriving DecidableEq, Repr

/-- Lookup `nodeMap.get id`: the JS `Map` built from `nodes.map(n => [n.id, n])`
keeps the *last* entry per key. -/
def findNode (g : Graph) (nodeId : String) : Option Node :=
  (g.nodes.filter (fun n => n.id = nodeId)).getLast?

/-- Flow parents of `nodeId`: sources of edges targeting it whose
`targetHandle` is not `"compare-input"`, in edge-list order
(the `graph` adjacency map of the source). -/
def parentsOf (g : Graph) (nodeId : String) : List String :=
  (g.edges.filter
    (fun e => e.target = nodeId ∧ e.targetHandle ≠ some "compare-input")).map
    (fun e => e.source)

/-- The `compareInputs` map: last `compare-input` edge targeting `nodeId`
wins (JS `Map.set` overwrites). -/
def compareInputsOf (g : Graph) (nodeId : String) : Option String :=
  ((g.edges.filter
    (fun e => e.target = nodeId ∧ e.targetHandle = some "compare-input")).map
    (fun e => e.source)).getLast?

/-! ## Emitted scalar expressions -/

/-- A named data/indicator series referenced by emitted code
(`self.data.Close`, `self.rsi_14`, ...). `priceOther` covers price labels
outside OHLCV, which the source capitalizes verbatim. -/
inductive Series where
  | sOpen
  | sHigh
  | sLow
  | sClose
  | sVolume
  | rsi (p : Nat)
  | sma (p : Nat)
  | ema (p : Nat)
  | macd
  | bbUpper
  | atr (p : Nat)
  | stochK (p : Nat)
  | adx (p : Nat)
  | priceOther (name : String)
deriving DecidableEq, Repr

/-- Emitted `self.data.${label}` series selection: lowercase the label; `volume`
maps to `Volume`, otherwise the label is capitalized, which for the OHLC
labels yields the matching series and otherwise a verbatim-named one. -/
def priceSeriesOfLabel (label : String) : Series :=
  let p := toLowerStr label
  if p = "volume" then Series.sVolume
  else if p = "open" then Series.sOpen
  else if p = "high" then Series.sHigh
  else if p = "low" then Series.sLow
  else if p = "close" then Series.sClose
  else Series.priceOther p

/-- An emitted scalar expression: a series reference `series[-idx]`
(`idx ≥ 1` in emitted code) or a numeric literal. -/
inductive Expr where
  | ref (s : Series) (idx : Nat)
  | lit (v : ℚ)
deriving DecidableEq, Repr

/-- Source `generateExpression(nodeId, barOffset?)`: resolves a node to the
emitted scalar expression.  `offset > 0` emits `[-(offset+1)]`, otherwise
`[-1]`; unknown nodes/indicator names emit the literal `'0'`. -/
def generateExpression (g : Graph) (nodeId : String) (barOffset : Option Int) :
    Expr :=
  match findNode g nodeId with
  | none => Expr.lit 0
  | some node =>
    let offset := barOffset.getD (jsOrInt node.data.barOffset 0)
    let idx : Nat := if 0 < offset then (offset + 1).toNat else 1
    if node.type = "price" then
      Expr.ref (priceSeriesOfLabel node.data.label) idx
    else if node.type = "indicator" then
      let cfg := node.data.config
      let indicatorName := headWord node.data.label
      if indicatorName = "RSI" then Expr.ref (Series.rsi (jsOrNat cfg.period 14)) idx
      else if indicatorName = "SMA" then Expr.ref (Series.sma (jsOrNat cfg.period 20)) idx
      else if indicatorName = "EMA" then Expr.ref (Series.ema (jsOrNat cfg.period 20)) idx
      else if indicatorName = "MACD" then Expr.ref Series.macd idx
      else if indicatorName = "Bollinger" then Expr.ref Series.bbUpper idx
      else if indicatorName = "ATR" then Expr.ref (Series.atr (jsOrNat cfg.period 14)) idx
      else if indicatorName = "Stochastic" then Expr.ref (Series.stochK (jsOrNat cfg.kPeriod 14)) idx
      else if indicatorName = "ADX" then Expr.ref (Series.adx (jsOrNat cfg.period 14)) idx
      else Expr.lit 0
    else if node.type = "value" then
      Expr.lit (node.data.compareValue.getD 0)
    else Expr.lit 0

/-! ## Emitted boolean conditions -/

/-- An emitted boolean condition.  `cmp` keeps the comparison operator as
the string the generator splices into the Python text; `anyRange n body`
is the emitted `any(body' for i in range(n))` where `body'` is `body`
with `[-1]`/`[-2]` textually rewritten to `[-i-1]`/`[-i-2]`. -/
inductive Cond where
  | tru
  | cmp (op : String) (l r : Expr)
  | cAnd (a b : Cond)
  | cOr (a b : Cond)
  | cNot (a : Cond)
  | anyRange (n : Nat) (body : Cond)
deriving DecidableEq, Repr

/-- Python chain `(c1 op c2 op ... cn)` produced by `conditions.join(op)`. -/
def joinConds (isAnd : Bool) : List Cond → Cond
  | [] => Cond.tru
  | [c] => c
  | c :: rest =>
    if isAnd then Cond.cAnd c (joinConds isAnd rest)
    else Cond.cOr c (joinConds isAnd rest)

/-- The textual lookback rewrite on one expression: `[-1] ↦ [-i-1]`,
`[-2] ↦ [-i-2]`; any other index (e.g. `[-3]`) is left untouched, exactly
as the source's `String.replace` of the two literal substrings. -/
def lookShiftExpr (i : Nat) : Expr → Expr
  | Expr.ref s 1 => Expr.ref s (i + 1)
  | Expr.ref s 2 => Expr.ref s (i + 2)
  | e => e

/-- The textual lookback rewrite applied across a condition.  An
`anyRange` body is left untouched: once wrapped, its text contains only
`[-i-1]`/`[-i-2]`/`[-k]` (k ≥ 3) forms, none of which match the literal
substrings `[-1]`/`[-2]` a later replace would look for. -/
def lookShiftCond (i : Nat) : Cond → Cond
  | Cond.tru => Cond.tru
  | Cond.cmp op l r => Cond.cmp op (lookShiftExpr i l) (lookShiftExpr i r)
  | Cond.cAnd a b => Cond.cAnd (lookShiftCond i a) (lookShiftCond i b)
  | Cond.cOr a b => Cond.cOr (lookShiftCond i a) (lookShiftCond i b)
  | Cond.cNot a => Cond.cNot (lookShiftCond i a)
  | Cond.anyRange n body => Cond.anyRange n body

/-- Runtime meaning of an emitted scalar expression inside `next()` at bar
`t`: `series[-idx]` reads the series at bar `t + 1 - idx` (so `[-1]` is the
just-closed bar `t`, `[-2]` is bar `t-1`, ...). -/
def evalExpr (env : Series → Int → ℚ) (t : Int) : Expr → ℚ
  | Expr.ref s idx => env s (t + 1 - (idx : Int))
  | Expr.lit v => v

/-- Runtime meaning of a spliced comparison-operator string; an operator
outside the emitted set would be invalid Python, modelled as `false`. -/
def evalOp (op : String) (a b : ℚ) : Bool :=
  if op = ">" then decide (a > b)
  else if op = "<" then decide (a < b)
  else if op = ">=" then decide (a ≥ b)
  else if op = "<=" then decide (a ≤ b)
  else if op = "==" then decide (a = b)
  else false

/-- Runtime meaning of an emitted condition at bar `t`, with `sh` the
lookback shift pending on its comparison leaves (the loop variable `i` of
an enclosing `any(... for i in range(N))`; `0` when there is none, since
`lookShiftExpr 0` is the identity).  An inner `anyRange` body is immune to
the enclosing shift (see `lookShiftCond`) and is evaluated with its own
loop variable. -/
def evalCondSh (env : Series → Int → ℚ) (t : Int) : Cond → Nat → Bool
  | Cond.tru, _ => true
  | Cond.cmp op l r, sh =>
    evalOp op (evalExpr env t (lookShiftExpr sh l)) (evalExpr env t (lookShiftExpr sh r))
  | Cond.cAnd a b, sh => evalCondSh env t a sh && evalCondSh env t b sh
  | Cond.cOr a b, sh => evalCondSh env t a sh || evalCondSh env t b sh
  | Cond.cNot a, sh => !evalCondSh env t a sh
  | Cond.anyRange n body, _ =>
    (List.range n).any (fun i => evalCondSh env t body i)

/-- Runtime meaning of an emitted condition at bar `t`. -/
def evalCond (env : Series → Int → ℚ) (t : Int) (c : Cond) : Bool :=
  evalCondSh env t c 0

/-! ## Condition generation -/

/-- Source `generateCrossoverCondition(nodeId, compareSourceId, crossType)`:
samples both the node and its compare source at offsets 0 (current) and 1
(previous) and emits
`(prev <= prevCompare and curr > currCompare)` for `'above'`, mirrored
with `>=`/`<` for `'below'`. -/
def generateCrossoverCondition (g : Graph) (nodeId compareSourceId : String)
    (above : Bool) : Cond :=
  let currExpr := generateExpression g nodeId (some 0)
  let prevExpr := generateExpression g nodeId (some 1)
  let currCompare := generateExpression g compareSourceId (some 0)
  let prevCompare := generateExpression g compareSourceId (some 1)
  if above then
    Cond.cAnd (Cond.cmp "<=" prevExpr prevCompare) (Cond.cmp ">" currExpr currCompare)
  else
    Cond.cAnd (Cond.cmp ">=" prevExpr prevCompare) (Cond.cmp "<" currExpr currCompare)

/-- Source `generateCrossoverValueCondition`: crossover against the literal
compare value, spliced identically on both bars. -/
def generateCrossoverValueCondition (g : Graph) (nodeId : String)
    (compareValue : ℚ) (above : Bool) : Cond :=
  let currExpr := generateExpression g nodeId (some 0)
  let prevExpr := generateExpression g nodeId (some 1)
  if above then
    Cond.cAnd (Cond.cmp "<=" prevExpr (Expr.lit compareValue))
      (Cond.cmp ">" currExpr (Expr.lit compareValue))
  else
    Cond.cAnd (Cond.cmp ">=" prevExpr (Expr.lit compareValue))
      (Cond.cmp "<" currExpr (Expr.lit compareValue))

/-- Source `wrapWithLookback(condition, lookback)`: non-positive lookback returns
the condition unchanged; otherwise the `any(... for i in range(N))`
wrapper with the textual `[-1]`/`[-2]` rewrite (see `Cond.anyRange`). -/
def wrapWithLookback (condition : Cond) (lookback : Int) : Cond :=
  if lookback ≤ 0 then condition else Cond.anyRange lookback.toNat condition

/-- The built-in comparison condition of a price/indicator node: the
`let condition` body of `generateNodeCondition`, before lookback
wrapping. -/
def priceIndicatorCond (g : Graph) (nodeId : String) (node : Node) : Cond :=
  let comparison := jsOrStr node.data.comparison ">"
  let compareValue := node.data.compareValue.getD 0
  let expression := generateExpression g nodeId none
  let compareSourceId := compareInputsOf g nodeId
  if comparison = "crosses_above" then
    match compareSourceId with
    | some src => generateCrossoverCondition g nodeId src true
    | none => generateCrossoverValueCondition g nodeId compareValue true
  else if comparison = "crosses_below" then
    match compareSourceId with
    | some src => generateCrossoverCondition g nodeId src false
    | none => generateCrossoverValueCondition g nodeId compareValue false
  else
    match compareSourceId with
    | some src => Cond.cmp comparison expression (generateExpression g src none)
    | none => Cond.cmp comparison expression (Expr.lit compareValue)

/-- Source `generateNodeCondition(nodeId, visited)`.  The source's recursion
terminates because each call adds the (existing, unvisited) node id to the
path-scoped `visited` set; here that argument is made explicit with a
`fuel` counter, always called with fuel exceeding the number of graph
nodes, which the visited-set discipline makes sufficient
(`generateNodeCondition_fuel_irrel`). -/
def generateNodeCondition (g : Graph) : Nat → String → List String → Cond
  | 0, _, _ => Cond.tru
  | fuel + 1, nodeId, visited =>
    if visited.contains nodeId then Cond.tru
    else
      let visited' := nodeId :: visited
      match findNode g nodeId with
      | none => Cond.tru
      | some node =>
        if node.type = "indicator" ∨ node.type = "price" then
          let lookback := jsOrInt node.data.lookback 0
          let condition := priceIndicatorCond g nodeId node
          if 0 < lookback then wrapWithLookback condition lookback else condition
        else if node.type = "logic" then
          let parents := parentsOf g nodeId
          if node.data.label = "NOT" then
            match parents with
            | [] => Cond.tru
            | p :: _ => Cond.cNot (generateNodeCondition g fuel p visited')
          else
            match parents with
            | [] => Cond.tru
            | _ :: _ =>
              joinConds (node.data.label = "AND")
                (parents.map (fun p => generateNodeCondition g fuel p visited'))
        else Cond.tru

/-- The generator's standard fuel: one more than the node count, enough
for any visited-set path. -/
def stdFuel (g : Graph) : Nat := g.nodes.length + 1

/-- Call `generateNodeCondition(nodeId, new Set())`: a fresh compilation of the
condition rooted at `nodeId`, as every caller in the source invokes it. -/
def genCondTop (g : Graph) (nodeId : String) : Cond :=
  generateNodeCondition g (stdFuel g) nodeId []

/-! ## Indicator initializations (`init()` lines) -/

/-- One emitted `init()` line, identified by the indicator (or exit state
slot) it initializes and its parameters. -/
inductive InitEntry where
  | rsi (p : Nat)
  | sma (p : Nat)
  | ema (p : Nat)
  | macd (fast slow sig : Nat)
  | bollinger (p std : Nat)
  | atr (p : Nat)
  | stoch (k d : Nat)
  | adx (p : Nat)
  /-- the separate `self.exit_atr = self.I(talib.ATR, ..., period)` line. -/
  | exitAtr (p : Nat)
  /-- `self.entry_price = 0`. -/
  | entryPriceInit
  /-- `self.trailing_stop_price = 0`. -/
  | trailingStopInit
deriving DecidableEq, Repr

/-- The `init()` line an indicator node contributes (the `indicatorInits`
map body); unknown indicator names contribute `''`, filtered out. -/
def indicatorInitOf (node : Node) : Option InitEntry :=
  let cfg := node.data.config
  let indicatorName := headWord node.data.label
  if indicatorName = "RSI" then some (InitEntry.rsi (jsOrNat cfg.period 14))
  else if indicatorName = "SMA" then some (InitEntry.sma (jsOrNat cfg.period 20))
  else if indicatorName = "EMA" then some (InitEntry.ema (jsOrNat cfg.period 20))
  else if indicatorName = "MACD" then
    some (InitEntry.macd (jsOrNat cfg.fast 12) (jsOrNat cfg.slow 26) (jsOrNat cfg.signal 9))
  else if indicatorName = "Bollinger" then
    some (InitEntry.bollinger (jsOrNat cfg.period 20) (jsOrNat cfg.std 2))
  else if indicatorName = "ATR" then some (InitEntry.atr (jsOrNat cfg.period 14))
  else if indicatorName = "Stochastic" then
    some (InitEntry.stoch (jsOrNat cfg.kPeriod 14) (jsOrNat cfg.dPeriod 3))
  else if indicatorName = "ADX" then some (InitEntry.adx (jsOrNat cfg.period 14))
  else none

/-- The `indicatorInits` list: one entry per indicator node, in node
order, with empty entries filtered — no deduplication. -/
def indicatorInits (g : Graph) : List InitEntry :=
  (g.nodes.filter (fun n => n.type = "indicator")).filterMap indicatorInitOf

/-! ## Exit rules (`generateExitLogic`) -/

/-- The semantic content of the `next()` lines one exit node emits. -/
inductive ExitRule where
  | stopLossPercent (v : ℚ)
  | stopLossFixed (v : ℚ)
  | stopLossAtr (v : ℚ)
  | takeProfitPercent (v : ℚ)
  | takeProfitFixed (v : ℚ)
  | takeProfitAtr (v : ℚ)
  | trailingPercent (v : ℚ)
  | trailingAtr (m : ℚ)
deriving DecidableEq, Repr

/-- Whether an exit rule is a (compiled) trailing stop. -/
def ExitRule.isTrailing : ExitRule → Bool
  | ExitRule.trailingPercent _ => true
  | ExitRule.trailingAtr _ => true
  | _ => false

/-- What the `switch (node.data.label)` in `generateExitLogic` emits for
one exit node; label/basis combinations with no emitting branch
contribute nothing. -/
def exitRuleOfNode (node : Node) : Option ExitRule :=
  let cfg := node.data.config
  let exitType := jsOrStr cfg.type "percent"
  let value := jsOrQ cfg.value 2
  if node.data.label = "Stop Loss" then
    if exitType = "percent" then some (ExitRule.stopLossPercent value)
    else if exitType = "fixed" then some (ExitRule.stopLossFixed value)
    else if exitType = "atr" then some (ExitRule.stopLossAtr value)
    else none
  else if node.data.label = "Take Profit" then
    if exitType = "percent" then some (ExitRule.takeProfitPercent value)
    else if exitType = "fixed" then some (ExitRule.takeProfitFixed value)
    else if exitType = "atr" then some (ExitRule.takeProfitAtr value)
    else none
  else if node.data.label = "Trailing Stop" then
    if exitType = "percent" then some (ExitRule.trailingPercent (jsOrQ cfg.value 2))
    else if exitType = "atr" then some (ExitRule.trailingAtr (jsOrQ cfg.multiplier 2))
    else none
  else none

/-- The exit rules emitted into the `if self.position:` block, in exit
node order. -/
def exitRulesOf (exitNodes : List Node) : List ExitRule :=
  exitNodes.filterMap exitRuleOfNode

/-- The `needsAtr`/`atrPeriod` pair after the `exitNodes.forEach` loop:
every exit node whose `config.type` is `'atr'` (regardless of label) sets
`needsAtr` and overwrites `atrPeriod`, so the last one wins. -/
def exitAtrState (exitNodes : List Node) : Bool × Nat :=
  exitNodes.foldl
    (fun acc n =>
      if jsOrStr n.data.config.type "percent" = "atr" then
        (true, jsOrNat n.data.config.period 14)
      else acc)
    (false, 14)

/-- The `initLines` of `generateExitLogic`: empty when there are no exit
nodes; otherwise `self.entry_price = 0`, one `self.trailing_stop_price = 0`
per `Trailing Stop` node (pushed during the loop), and — when any exit
uses the ATR basis — the single `self.exit_atr` line unshifted to the
front. -/
def exitInits (exitNodes : List Node) : List InitEntry :=
  if exitNodes.isEmpty then []
  else
    let pushed :=
      (exitNodes.filter (fun n => n.data.label = "Trailing Stop")).map
        (fun _ => InitEntry.trailingStopInit)
    let base := InitEntry.entryPriceInit :: pushed
    if (exitAtrState exitNodes).1 then
      InitEntry.exitAtr (exitAtrState exitNodes).2 :: base
    else base

/-! ## Buy/sell action rules -/

/-- The order-placement statement of one action node (its `sizeLogic`). -/
inductive SizeLogic where
  | buyAll
  | buyCash (amt : ℚ)
  | buyShares (amt : ℚ)
  | buyPercent (amt : ℚ)
  /-- unknown buy `orderType`: `sizeLogic` stays the empty string. -/
  | buyEmpty
  | sellCloseAll
  | sellShares (amt : ℚ)
  | sellPercent (amt : ℚ)
deriving DecidableEq, Repr

/-- The entry condition of an action node: parents' conditions (each
compiled with a fresh `visited` set) conjoined; no parents means `True`. -/
def actionCondition (g : Graph) (node : Node) : Cond :=
  match parentsOf g node.id with
  | [] => Cond.tru
  | ps => joinConds true (ps.map (fun p => genCondTop g p))

/-- Source `generateBuyLogic`. -/
def generateBuyLogic (g : Graph) (node : Node) : Cond × SizeLogic :=
  let cfg := node.data.config
  let orderType := jsOrStr cfg.orderType "all"
  let amount := jsOrQ cfg.amount 100000
  let sizeLogic :=
    if orderType = "all" then SizeLogic.buyAll
    else if orderType = "cash" then SizeLogic.buyCash amount
    else if orderType = "shares" then SizeLogic.buyShares amount
    else if orderType = "percent" then SizeLogic.buyPercent amount
    else SizeLogic.buyEmpty
  (actionCondition g node, sizeLogic)

/-- Source `generateSellLogic` (unknown `orderType` falls back to
`self.position.close()`). -/
def generateSellLogic (g : Graph) (node : Node) : Cond × SizeLogic :=
  let cfg := node.data.config
  let orderType := jsOrStr cfg.orderType "all"
  let amount := jsOrQ cfg.amount 100000
  let sizeLogic :=
    if orderType = "all" then SizeLogic.sellCloseAll
    else if orderType = "shares" then SizeLogic.sellShares amount
    else if orderType = "percent" then SizeLogic.sellPercent amount
    else SizeLogic.sellCloseAll
  (actionCondition g node, sizeLogic)

/-! ## The compiled strategy and the top-level generator -/

/-- The structured content of the emitted `WickStrategy` class. -/
structure StrategyCode where
  /-- all `init()` lines: indicator inits then exit inits. -/
  allInits : List InitEntry
  /-- exit rules inside the `if self.position:` block of `next()`. -/
  exitRules : List ExitRule
  /-- buy rules, one per buy action node: condition and sizing. -/
  buyRules : List (Cond × SizeLogic)
  /-- sell rules, one per sell action node. -/
  sellRules : List (Cond × SizeLogic)
deriving DecidableEq, Repr

/-- Result of `generateStrategyCode`: the empty string for an empty node
list, the `'# No action nodes found...'` comment when no action node
exists, otherwise the strategy class. -/
inductive GenResult where
  | empty
  | noActionMsg
  | strategy (s : StrategyCode)
deriving DecidableEq, Repr

/-- Source `generateStrategyCode(nodes, edges)`. -/
def generateStrategyCode (g : Graph) : GenResult :=
  if g.nodes.isEmpty then GenResult.empty
  else
    let actionNodes := g.nodes.filter (fun n => n.type = "action")
    let exitNodes := g.nodes.filter (fun n => n.type = "exit")
    if actionNodes.isEmpty then GenResult.noActionMsg
    else
      let buyNodes := actionNodes.filter
        (fun n => strHasSub (toLowerStr n.data.label) "buy")
      let sellNodes := actionNodes.filter
        (fun n => strHasSub (toLowerStr n.data.label) "sell")
      GenResult.strategy
        { allInits := indicatorInits g ++ exitInits exitNodes
          exitRules := exitRulesOf exitNodes
          buyRules := buyNodes.map (generateBuyLogic g)
          sellRules := sellNodes.map (generateSellLogic g) }

/-- Whether generation produced a strategy class (as opposed to the empty
output or the no-action-nodes comment). -/
def GenResult.isStrategy : GenResult → Bool
  | GenResult.strategy _ => true
  | _ => false

/-- The init lines of a generation result (empty when no class was
emitted). -/
def stratInits : GenResult → List InitEntry
  | GenResult.strategy s => s.allInits
  | _ => []

/-- The buy rules of a generation result. -/
def stratBuyRules : GenResult → List (Cond × SizeLogic)
  | GenResult.strategy s => s.buyRules
  | _ => []

/-- The sell rules of a generation result. -/
def stratSellRules : GenResult → List (Cond × SizeLogic)
  | GenResult.strategy s => s.sellRules
  | _ => []

/-! ## Runtime semantics of the emitted trailing-stop block

The emitted `next()` code for a `Trailing Stop` node, run each bar under
`if self.position:`, is

```
new_stop = <candidate from current close>
if new_stop > self.trailing_stop_price:
    self.trailing_stop_price = new_stop
if self.data.Close[-1] <= self.trailing_stop_price:
    self.position.close()
    self.trailing_stop_price = 0
    self.entry_price = 0
```

with candidate `Close[-1] * (1 - value/100)` for the percent basis and
`Close[-1] - multiplier * exit_atr[-1]` for the ATR basis. -/

/-- Position-scoped execution state carried across bars. -/
structure ExecPos where
  trailing : ℚ
  entry : ℚ
  isOpen : Bool
deriving DecidableEq, Repr

/-- The `new_stop` candidate an exit rule computes from the current bar's
close (and ATR value); `none` for non-trailing rules, which emit no such
line. -/
def trailingCandidate (r : ExitRule) (close atrVal : ℚ) : Option ℚ :=
  match r with
  | ExitRule.trailingPercent v => some (close * (1 - v / 100))
  | ExitRule.trailingAtr m => some (close - m * atrVal)
  | _ => none

/-- One bar of the emitted trailing-stop block (a no-op unless a position
is open, per the surrounding `if self.position:`). -/
def trailingStepRule (r : ExitRule) (close atrVal : ℚ) (st : ExecPos) :
    ExecPos :=
  if st.isOpen then
    match trailingCandidate r close atrVal with
    | none => st
    | some cand =>
      let tr := if cand > st.trailing then cand else st.trailing
      if close ≤ tr then { trailing := 0, entry := 0, isOpen := false }
      else { trailing := tr, entry := st.entry, isOpen := true }
  else st

/-- States visited while replaying a rule over a list of
`(close, atr)` bars, starting state included. -/
def trailStates (r : ExitRule) (st : ExecPos) : List (ℚ × ℚ) → List ExecPos
  | [] => [st]
  | b :: bs => st :: trailStates r (trailingStepRule r b.1 b.2 st) bs

/-! ## Runtime semantics of the emitted buy/sell sections of `next()`

Each buy node emits

```
if <condition>:
    if not self.position:
        <sizeLogic order>
        self.entry_price = self.data.Close[-1]
```

joined with `'\n        el'` — i.e. the second and later blocks become
`elif`s, so the sections are first-match chains.  Sell blocks are the
mirror with `if self.position:`, the sell order, and `self.entry_price = 0`.
The emitted statements are modelled by `NextStmt` and run by a small
interpreter, so the flat/holding guard is a provable property of the
emitted code's semantics rather than a definition. -/

/-- An order statement the emitted code can execute. -/
inductive TradeOp where
  | opBuy (s : SizeLogic)
  | opSell (s : SizeLogic)
deriving DecidableEq, Repr

/-- Whether an executed order came from a buy block. -/
def TradeOp.isBuyOp : TradeOp → Bool
  | TradeOp.opBuy _ => true
  | TradeOp.opSell _ => false

/-- Statements of the emitted `next()` buy/sell blocks. -/
inductive NextStmt where
  /-- `if not self.position:` guard around a body. -/
  | guardFlat (body : List NextStmt)
  /-- `if self.position:` guard around a body. -/
  | guardHeld (body : List NextStmt)
  /-- an order statement. -/
  | emitOp (op : TradeOp)
  /-- `self.entry_price = self.data.Close[-1]`. -/
  | setEntryClose
  /-- `self.entry_price = 0`. -/
  | clearEntry
deriving Repr

/-- Interpreter state for one evaluation of the emitted sections:
the open-position flag and entry price, plus the orders executed. -/
structure RunState where
  position : Bool
  entry : ℚ
  ops : List TradeOp
deriving DecidableEq, Repr

mutual

/-- Run one emitted statement. -/
def execStmt (env : Series → Int → ℚ) (t : Int) :
    NextStmt → RunState → RunState
  | NextStmt.guardFlat body, st =>
    if st.position then st else execStmts env t body st
  | NextStmt.guardHeld body, st =>
    if st.position then execStmts env t body st else st
  | NextStmt.emitOp op, st => { st with ops := st.ops ++ [op] }
  | NextStmt.setEntryClose, st => { st with entry := env Series.sClose t }
  | NextStmt.clearEntry, st => { st with entry := 0 }

/-- Run a statement list in order. -/
def execStmts (env : Series → Int → ℚ) (t : Int) :
    List NextStmt → RunState → RunState
  | [], st => st
  | s :: rest, st => execStmts env t rest (execStmt env t s st)

end

/-- Run an `if/elif` chain: the first branch whose condition holds (at the
current bar) runs, the rest are skipped. -/
def runChain (env : Series → Int → ℚ) (t : Int) :
    List (Cond × List NextStmt) → RunState → RunState
  | [], st => st
  | (c, body) :: rest, st =>
    if evalCond env t c then execStmts env t body st
    else runChain env t rest st

/-- The emitted buy section as an `if/elif` chain (source `buyCode`). -/
def buySection (rules : List (Cond × SizeLogic)) :
    List (Cond × List NextStmt) :=
  rules.map (fun r =>
    (r.1, [NextStmt.guardFlat
      [NextStmt.emitOp (TradeOp.opBuy r.2), NextStmt.setEntryClose]]))

/-- The emitted sell section as an `if/elif` chain (source `sellCode`). -/
def sellSection (rules : List (Cond × SizeLogic)) :
    List (Cond × List NextStmt) :=
  rules.map (fun r =>
    (r.1, [NextStmt.guardHeld
      [NextStmt.emitOp (TradeOp.opSell r.2), NextStmt.clearEntry]]))

/-! ## Supporting lemmas -/

theorem lookShiftExpr_zero (e : Expr) : lookShiftExpr 0 e = e := by
  cases e with
  | lit v => rfl
  | ref s idx =>
    match idx with
    | 0 => rfl
    | 1 => rfl
    | 2 => rfl
    | n + 3 => rfl

theorem evalOp_le (a b : ℚ) : evalOp "<=" a b = decide (a ≤ b) := rfl

theorem evalOp_lt (a b : ℚ) : evalOp "<" a b = decide (a < b) := rfl

theorem evalOp_ge (a b : ℚ) : evalOp ">=" a b = decide (a ≥ b) := rfl

theorem evalOp_gt (a b : ℚ) : evalOp ">" a b = decide (a > b) := rfl

/-- The compare operand of a crossover at a given offset: the
compare-input source's expression at that offset when such an edge
exists, otherwise the literal compare value (the same at both offsets). -/
def crossCompareExpr (g : Graph) (nodeId : String) (node : Node)
    (offset : Int) : Expr :=
  match compareInputsOf g nodeId with
  | some src => generateExpression g src (some offset)
  | none => Expr.lit (node.data.compareValue.getD 0)

/-- Unfolding `generateNodeCondition` at a price/indicator node reached
with fresh `visited`: the built-in comparison condition, lookback-wrapped
when the lookback is positive. -/
theorem genCondTop_priceIndicator (g : Graph) (node : Node)
    (hf : findNode g node.id = some node)
    (htype : node.type = "indicator" ∨ node.type = "price") :
    genCondTop g node.id =
      (if 0 < jsOrInt node.data.lookback 0 then
        wrapWithLookback (priceIndicatorCond g node.id node)
          (jsOrInt node.data.lookback 0)
      else priceIndicatorCond g node.id node) := by
  show generateNodeCondition g (g.nodes.length + 1) node.id [] = _
  rw [generateNodeCondition, hf]
  simp only [List.contains_nil, Bool.false_eq_true, if_false, if_pos htype]

/-- Unfolding `priceIndicatorCond` for a `crosses_above` comparison. -/
theorem priceIndicatorCond_crossAbove (g : Graph) (node : Node)
    (hc : jsOrStr node.data.comparison ">" = "crosses_above") :
    priceIndicatorCond g node.id node =
      Cond.cAnd
        (Cond.cmp "<=" (generateExpression g node.id (some 1))
          (crossCompareExpr g node.id node 1))
        (Cond.cmp ">" (generateExpression g node.id (some 0))
          (crossCompareExpr g node.id node 0)) := by
  rw [priceIndicatorCond, hc]
  simp only [if_pos rfl]
  cases hci : compareInputsOf g node.id with
  | none =>
    simp [generateCrossoverValueCondition, crossCompareExpr, hci]
  | some src =>
    simp [generateCrossoverCondition, crossCompareExpr, hci]

/-- Unfolding `priceIndicatorCond` for a `crosses_below` comparison. -/
theorem priceIndicatorCond_crossBelow (g : Graph) (node : Node)
    (hc : jsOrStr node.data.comparison ">" = "crosses_below") :
    priceIndicatorCond g node.id node =
      Cond.cAnd
        (Cond.cmp ">=" (generateExpression g node.id (some 1))
          (crossCompareExpr g node.id node 1))
        (Cond.cmp "<" (generateExpression g node.id (some 0))
          (crossCompareExpr g node.id node 0)) := by
  rw [priceIndicatorCond, hc]
  rw [if_neg (by decide), if_pos rfl]
  cases hci : compareInputsOf g node.id with
  | none =>
    simp [generateCrossoverValueCondition, crossCompareExpr, hci]
  | some src =>
    simp [generateCrossoverCondition, crossCompareExpr, hci]

/-! ## C1: crossover conditions -/

/-- C1.  For every Price/Indicator node whose comparison resolves to
`crosses_above` (and has no lookback), the compiled condition is exactly
the conjunction `prev <= prevCompare AND curr > currCompare`, with the
node and its compare operand sampled at matching offsets (current at
offset 0, previous at offset 1), and it evaluates accordingly;
`crosses_below` is the mirror with `>=`/`<`. -/
theorem c1_crossover_condition (g : Graph) (node : Node)
    (env : Series → Int → ℚ) (t : Int)
    (hf : findNode g node.id = some node)
    (htype : node.type = "indicator" ∨ node.type = "price")
    (hlb : jsOrInt node.data.lookback 0 ≤ 0) :
    (jsOrStr node.data.comparison ">" = "crosses_above" →
      genCondTop g node.id =
        Cond.cAnd
          (Cond.cmp "<=" (generateExpression g node.id (some 1))
            (crossCompareExpr g node.id node 1))
          (Cond.cmp ">" (generateExpression g node.id (some 0))
            (crossCompareExpr g node.id node 0)) ∧
      evalCond env t (genCondTop g node.id) =
        (decide (evalExpr env t (generateExpression g node.id (some 1)) ≤
            evalExpr env t (crossCompareExpr g node.id node 1)) &&
         decide (evalExpr env t (generateExpression g node.id (some 0)) >
            evalExpr env t (crossCompareExpr g node.id node 0))))
    ∧ (jsOrStr node.data.comparison ">" = "crosses_below" →
      genCondTop g node.id =
        Cond.cAnd
          (Cond.cmp ">=" (generateExpression g node.id (some 1))
            (crossCompareExpr g node.id node 1))
          (Cond.cmp "<" (generateExpression g node.id (some 0))
            (crossCompareExpr g node.id node 0)) ∧
      evalCond env t (genCondTop g node.id) =
        (decide (evalExpr env t (generateExpression g node.id (some 1)) ≥
            evalExpr env t (crossCompareExpr g node.id node 1)) &&
         decide (evalExpr env t (generateExpression g node.id (some 0)) <
            evalExpr env t (crossCompareExpr g node.id node 0)))) := by
  have hbase : genCondTop g node.id = priceIndicatorCond g node.id node := by
    rw [genCondTop_priceIndicator g node hf htype, if_neg (by omega)]
  constructor
  · intro hc
    have hsyn := priceIndicatorCond_crossAbove g node hc
    refine ⟨hbase.trans hsyn, ?_⟩
    rw [hbase, hsyn]
    simp [evalCond, evalCondSh, lookShiftExpr_zero, evalOp_le, evalOp_gt]
  · intro hc
    have hsyn := priceIndicatorCond_crossBelow g node hc
    refine ⟨hbase.trans hsyn, ?_⟩
    rw [hbase, hsyn]
    simp [evalCond, evalCondSh, lookShiftExpr_zero, evalOp_ge, evalOp_lt]

/-- The crossing-above-30 price node of the spec's `[35, 28, 32]`
example. -/
def c1Node : Node :=
  { id := "n1", type := "price",
    data := { label := "Close", comparison := some "crosses_above",
              compareValue := some 30 } }

/-- A buy-action node (needed for a complete strategy). -/
def c1Buy : Node :=
  { id := "a1", type := "action", data := { label := "Buy" } }

/-- The graph of the `[35, 28, 32]` crossover example. -/
def c1Graph : Graph :=
  { nodes := [c1Node, c1Buy], edges := [{ source := "n1", target := "a1" }] }

/-- The literal series `[35, 28, 32]` on `Close` (bars 0, 1, 2). -/
def c1Env : Series → Int → ℚ := fun s t =>
  if s = Series.sClose then
    (if t = 0 then 35 else if t = 1 then 28 else if t = 2 then 32 else 0)
  else 0

/-- Witness for C1: on the literal series `[35, 28, 32]` with threshold
30, the compiled `crosses_above` condition has the claimed conjunction
shape, is false at the second bar and true at the third. -/
theorem c1_crossover_condition_witness :
    genCondTop c1Graph "n1" =
      Cond.cAnd (Cond.cmp "<=" (Expr.ref Series.sClose 2) (Expr.lit 30))
        (Cond.cmp ">" (Expr.ref Series.sClose 1) (Expr.lit 30)) ∧
    evalCond c1Env 1 (genCondTop c1Graph "n1") = false ∧
    evalCond c1Env 2 (genCondTop c1Graph "n1") = true := by
  have h1 := (c1_crossover_condition c1Graph c1Node c1Env 1
    (by decide) (by decide) (by decide)).1 (by decide)
  have h2 := (c1_crossover_condition c1Graph c1Node c1Env 2
    (by decide) (by decide) (by decide)).1 (by decide)
  refine ⟨?_, ?_, ?_⟩
  · exact h1.1.trans (by decide)
  · exact h1.2.trans (by decide)
  · exact h2.2.trans (by decide)

/-! ## C9: a graph without action nodes is never partially compiled -/

/-- C9.  For every non-empty node list with zero action nodes, generation
aborts with the no-action-nodes message before any strategy part
(indicator init, predicate, exit logic) is produced: the result is the
bare `noActionMsg`, which carries no compiled content. -/
theorem c9_no_action_nodes (g : Graph)
    (hne : g.nodes ≠ [])
    (hact : g.nodes.filter (fun n => n.type = "action") = []) :
    generateStrategyCode g = GenResult.noActionMsg := by
  rw [generateStrategyCode]
  rw [if_neg (by simp [List.isEmpty_iff, hne])]
  rw [if_pos (by simp [List.isEmpty_iff, hact])]

/-- A graph holding a single price node and no action nodes. -/
def c9Graph : Graph :=
  { nodes := [{ id := "p1", type := "price", data := { label := "Close" } }],
    edges := [] }

/-- Witness for C9 at a concrete actionless graph. -/
theorem c9_no_action_nodes_witness :
    generateStrategyCode c9Graph = GenResult.noActionMsg :=
  c9_no_action_nodes c9Graph (by decide) (by decide)

/-! ## C3: a Flow cycle is compiled, not rejected

The source has no validation pass and no `GraphError`/`CycleDetected`
value at all: `generateNodeCondition`'s per-path `visited` set
short-circuits a revisited node to `'True'`, so the spec's cycle scenario
(A --Flow--> B --Flow--> A, both feeding an AND that feeds a Buy action)
compiles into a strategy with a weakened predicate instead of failing. -/

/-- The cycle scenario graph: OR nodes `A` and `B` in a Flow cycle, both
feeding a Logic AND that feeds a Buy action. -/
def c3Graph : Graph :=
  { nodes :=
      [{ id := "A", type := "logic", data := { label := "OR" } },
       { id := "B", type := "logic", data := { label := "OR" } },
       { id := "L", type := "logic", data := { label := "AND" } },
       { id := "buy1", type := "action", data := { label := "Buy" } }],
    edges :=
      [{ source := "A", target := "B" },
       { source := "B", target := "A" },
       { source := "A", target := "L" },
       { source := "B", target := "L" },
       { source := "L", target := "buy1" }] }

/-- C3 (the code, at the claim's failing input): compiling the cycle
scenario succeeds — it produces a strategy with one buy rule whose
predicate was compiled from the cycle — rather than failing validation
with any `CycleDetected` error (no such error exists in the generator). -/
theorem c3_cycle_compiles :
    (generateStrategyCode c3Graph).isStrategy = true ∧
    (stratBuyRules (generateStrategyCode c3Graph)).length = 1 := by
  decide

/-! ## C4: logic gate truth tables -/

theorem evalCondSh_joinConds_and (env : Series → Int → ℚ) (t : Int)
    (sh : Nat) (cs : List Cond) :
    evalCondSh env t (joinConds true cs) sh =
      cs.all (fun c => evalCondSh env t c sh) := by
  induction cs with
  | nil => rfl
  | cons c rest ih =>
    cases rest with
    | nil => simp [joinConds]
    | cons d ds =>
      simp only [joinConds, if_pos rfl, evalCondSh, List.all_cons]
      rw [ih]
      simp [List.all_cons]

theorem evalCondSh_joinConds_or (env : Series → Int → ℚ) (t : Int)
    (sh : Nat) (c : Cond) (rest : List Cond) :
    evalCondSh env t (joinConds false (c :: rest)) sh =
      (c :: rest).any (fun d => evalCondSh env t d sh) := by
  induction rest generalizing c with
  | nil => simp [joinConds]
  | cons d ds ih =>
    simp only [joinConds, if_neg (by decide : ¬ false = true), evalCondSh,
      List.any_cons]
    rw [ih d]
    simp [List.any_cons]

theorem all_map_lambda {α : Type} (f : α → Cond) (l : List α)
    (q : Cond → Bool) : (l.map f).all q = l.all (fun x => q (f x)) := by
  induction l with
  | nil => rfl
  | cons a l ih => simp [List.all_cons, ih]

theorem any_map_lambda {α : Type} (f : α → Cond) (l : List α)
    (q : Cond → Bool) : (l.map f).any q = l.any (fun x => q (f x)) := by
  induction l with
  | nil => rfl
  | cons a l ih => simp [List.any_cons, ih]

/-- Unfolding `generateNodeCondition` at a logic node reached with fresh
`visited`: its parents (inbound flow edges) are each compiled with the
node added to the path's visited set, then combined per the gate label. -/
theorem genCondTop_logic (g : Graph) (node : Node)
    (hf : findNode g node.id = some node)
    (htype : node.type = "logic") :
    genCondTop g node.id =
      (if node.data.label = "NOT" then
        match parentsOf g node.id with
        | [] => Cond.tru
        | p :: _ =>
          Cond.cNot (generateNodeCondition g g.nodes.length p [node.id])
      else
        match parentsOf g node.id with
        | [] => Cond.tru
        | _ :: _ =>
          joinConds (node.data.label = "AND")
            ((parentsOf g node.id).map
              (fun p => generateNodeCondition g g.nodes.length p [node.id]))) := by
  show generateNodeCondition g (g.nodes.length + 1) node.id [] = _
  rw [generateNodeCondition, hf]
  have hne : ¬ (node.type = "indicator" ∨ node.type = "price") := by
    rw [htype]; decide
  simp only [List.contains_nil, Bool.false_eq_true, if_false, if_neg hne,
    if_pos htype]

/-- C4.  For every Logic node: an AND gate's compiled predicate is true at
bar `t` iff the (path-compiled) predicates of all its flow parents are
true at `t` (vacuously true for an empty parent set); an OR gate's iff at
least one parent's is; a NOT gate's iff its (first) parent's is false; and
an AND/OR gate with no parents compiles to the always-true predicate. -/
theorem c4_logic_gates (g : Graph) (node : Node)
    (env : Series → Int → ℚ) (t : Int)
    (hf : findNode g node.id = some node)
    (htype : node.type = "logic") :
    (node.data.label = "AND" →
      evalCond env t (genCondTop g node.id) =
        (parentsOf g node.id).all (fun p =>
          evalCond env t (generateNodeCondition g g.nodes.length p [node.id])))
    ∧ (node.data.label = "OR" → parentsOf g node.id ≠ [] →
      evalCond env t (genCondTop g node.id) =
        (parentsOf g node.id).any (fun p =>
          evalCond env t (generateNodeCondition g g.nodes.length p [node.id])))
    ∧ (node.data.label = "NOT" → ∀ p ps, parentsOf g node.id = p :: ps →
      evalCond env t (genCondTop g node.id) =
        !evalCond env t (generateNodeCondition g g.nodes.length p [node.id]))
    ∧ (node.data.label ≠ "NOT" → parentsOf g node.id = [] →
      evalCond env t (genCondTop g node.id) = true) := by
  have hmain := genCondTop_logic g node hf htype
  refine ⟨?_, ?_, ?_, ?_⟩
  · intro hl
    rw [hmain, if_neg (by rw [hl]; decide)]
    cases hp : parentsOf g node.id with
    | nil => rfl
    | cons p ps =>
      rw [hl]
      show evalCondSh env t (joinConds true _) 0 = _
      rw [evalCondSh_joinConds_and, all_map_lambda]
      rfl
  · intro hl hne
    rw [hmain, if_neg (by rw [hl]; decide)]
    cases hp : parentsOf g node.id with
    | nil => exact absurd hp hne
    | cons p ps =>
      rw [hl]
      show evalCondSh env t (joinConds false (_ :: _)) 0 = _
      rw [evalCondSh_joinConds_or]
      show (List.map (fun x => generateNodeCondition g g.nodes.length x [node.id])
        (p :: ps)).any (fun d => evalCondSh env t d 0) = _
      rw [any_map_lambda]
      rfl
  · intro hl p ps hp
    rw [hmain, if_pos hl, hp]
    rfl
  · intro hnl hp
    rw [hmain, if_neg hnl, hp]
    rfl

/-- A conjunction scenario: two price conditions feeding an AND gate that
feeds a Buy action. -/
def c4Graph : Graph :=
  { nodes :=
      [{ id := "P1", type := "price",
         data := { label := "Close", comparison := some ">",
                   compareValue := some 10 } },
       { id := "P2", type := "price",
         data := { label := "Close", comparison := some "<",
                   compareValue := some 50 } },
       { id := "L1", type := "logic", data := { label := "AND" } },
       { id := "b1", type := "action", data := { label := "Buy" } }],
    edges :=
      [{ source := "P1", target := "L1" },
       { source := "P2", target := "L1" },
       { source := "L1", target := "b1" }] }

/-- The AND node of `c4Graph`. -/
def c4NodeL : Node := { id := "L1", type := "logic", data := { label := "AND" } }

/-- A constant environment with `Close = 20`. -/
def c4Env : Series → Int → ℚ := fun _ _ => 20

/-- Witness for C4: at the concrete AND-of-two-price-conditions graph,
the gate's predicate equals the conjunction of its parents' predicates,
and is true under `Close = 20` (both `20 > 10` and `20 < 50` hold). -/
theorem c4_logic_gates_witness :
    evalCond c4Env 0 (genCondTop c4Graph "L1") =
      ((parentsOf c4Graph "L1").all (fun p =>
        evalCond c4Env 0
          (generateNodeCondition c4Graph c4Graph.nodes.length p ["L1"]))) ∧
    evalCond c4Env 0 (genCondTop c4Graph "L1") = true := by
  have h := (c4_logic_gates c4Graph c4NodeL c4Env 0 (by decide) (by decide)).1
    (by decide)
  exact ⟨h, h.trans (by decide)⟩

/-! ## C5: NOT gate arity

The claim says zero or multiple parents on a NOT gate is a compile-time
`GraphError`.  The generator has no error channel at all: zero parents
silently compile to `'True'` and with several parents only `parents[0]`
is negated, the rest ignored. -/

/-- A graph with a parentless NOT gate `n0` and a NOT gate `n2` with two
price parents. -/
def c5Graph : Graph :=
  { nodes :=
      [{ id := "n0", type := "logic", data := { label := "NOT" } },
       { id := "n2", type := "logic", data := { label := "NOT" } },
       { id := "q1", type := "price",
         data := { label := "Close", comparison := some ">",
                   compareValue := some 10 } },
       { id := "q2", type := "price",
         data := { label := "Close", comparison := some "<",
                   compareValue := some 5 } }],
    edges :=
      [{ source := "q1", target := "n2" },
       { source := "q2", target := "n2" }] }

/-- Counterexample to C5: a NOT gate with zero parents compiles to the
always-true condition and one with two parents to the negation of its
first parent only (the second parent's `Close < 5` comparison is absent) —
no compile-time error of any kind is raised. -/
theorem c5_not_gate_counterexample :
    genCondTop c5Graph "n0" = Cond.tru ∧
    genCondTop c5Graph "n2" =
      Cond.cNot (Cond.cmp ">" (Expr.ref Series.sClose 1) (Expr.lit 10)) := by
  decide

/-- C5 (amended).  A NOT gate with zero flow parents compiles to the
always-true condition, and with one or more parents to the negation of
its first parent's (path-compiled) predicate, silently ignoring any
further parents; in particular with exactly one parent its predicate is
the negation of that parent's predicate.  No error is raised in either
case. -/
theorem c5_not_gate_amended (g : Graph) (node : Node)
    (hf : findNode g node.id = some node)
    (htype : node.type = "logic")
    (hlabel : node.data.label = "NOT") :
    (parentsOf g node.id = [] → genCondTop g node.id = Cond.tru)
    ∧ (∀ p ps, parentsOf g node.id = p :: ps →
      genCondTop g node.id =
        Cond.cNot (generateNodeCondition g g.nodes.length p [node.id])) := by
  have hmain := genCondTop_logic g node hf htype
  rw [if_pos hlabel] at hmain
  constructor
  · intro hp
    rw [hmain, hp]
  · intro p ps hp
    rw [hmain, hp]

/-- Witness for the amended C5 at the concrete graph: the two-parent NOT
gate `n2` negates exactly its first parent's condition. -/
theorem c5_not_gate_amended_witness :
    genCondTop c5Graph "n2" =
      Cond.cNot
        (generateNodeCondition c5Graph c5Graph.nodes.length "q1" ["n2"]) := by
  have h := (c5_not_gate_amended c5Graph
    { id := "n2", type := "logic", data := { label := "NOT" } }
    (by decide) (by decide) (by decide)).2 "q1" ["q2"] (by decide)
  exact h

/-! ## C7: bar offset `k` resolves to index `[-(k+1)]` -/

/-- Whether an indicator label's first word is in the generator's closed
indicator set (outside it the generator emits the literal `'0'`). -/
def knownIndicatorName (s : String) : Bool :=
  decide (s = "RSI") || decide (s = "SMA") || decide (s = "EMA") ||
  decide (s = "MACD") || decide (s = "Bollinger") || decide (s = "ATR") ||
  decide (s = "Stochastic") || decide (s = "ADX")

/-- C7.  For every Price node, and every Indicator node whose name is in
the closed indicator set, resolving its value at bar offset `k ≥ 0`
produces a reference to a named series at index `[-(k+1)]` (so offset 0
resolves to `[-1]`); the index is at least 1, and the reference reads the
series at bar `t - k` — at or before the most recently closed bar `t`,
never the in-progress bar. -/
theorem c7_offset_resolution (g : Graph) (node : Node) (k : Int)
    (hf : findNode g node.id = some node)
    (htype : node.type = "price" ∨
      (node.type = "indicator" ∧
        knownIndicatorName (headWord node.data.label) = true))
    (hk : 0 ≤ k) :
    ∃ s : Series,
      generateExpression g node.id (some k) = Expr.ref s ((k + 1).toNat) ∧
      1 ≤ (k + 1).toNat ∧
      ∀ (env : Series → Int → ℚ) (t : Int),
        evalExpr env t (generateExpression g node.id (some k)) =
          env s (t - k) := by
  have hidx : (if 0 < k then (k + 1).toNat else 1) = (k + 1).toNat := by
    by_cases h0 : 0 < k
    · rw [if_pos h0]
    · rw [if_neg h0]
      omega
  have mk : ∀ s : Series,
      generateExpression g node.id (some k) = Expr.ref s ((k + 1).toNat) →
      ∃ s : Series,
        generateExpression g node.id (some k) = Expr.ref s ((k + 1).toNat) ∧
        1 ≤ (k + 1).toNat ∧
        ∀ (env : Series → Int → ℚ) (t : Int),
          evalExpr env t (generateExpression g node.id (some k)) =
            env s (t - k) := by
    intro s hexpr
    refine ⟨s, hexpr, by omega, ?_⟩
    intro env t
    rw [hexpr]
    show env s (t + 1 - (((k + 1).toNat : Nat) : Int)) = env s (t - k)
    congr 1
    omega
  rcases htype with hp | ⟨hi, hn⟩
  · exact mk (priceSeriesOfLabel node.data.label)
      (by simp [generateExpression, hf, hp, hidx])
  · by_cases h1 : headWord node.data.label = "RSI"
    · exact mk (Series.rsi (jsOrNat node.data.config.period 14))
        (by simp [generateExpression, hf, hi, h1, hidx])
    · by_cases h2 : headWord node.data.label = "SMA"
      · exact mk (Series.sma (jsOrNat node.data.config.period 20))
          (by simp [generateExpression, hf, hi, h1, h2, hidx])
      · by_cases h3 : headWord node.data.label = "EMA"
        · exact mk (Series.ema (jsOrNat node.data.config.period 20))
            (by simp [generateExpression, hf, hi, h1, h2, h3, hidx])
        · by_cases h4 : headWord node.data.label = "MACD"
          · exact mk Series.macd
              (by simp [generateExpression, hf, hi, h1, h2, h3, h4, hidx])
          · by_cases h5 : headWord node.data.label = "Bollinger"
            · exact mk Series.bbUpper
                (by simp [generateExpression, hf, hi, h1, h2, h3, h4, h5, hidx])
            · by_cases h6 : headWord node.data.label = "ATR"
              · exact mk (Series.atr (jsOrNat node.data.config.period 14))
                  (by simp [generateExpression, hf, hi, h1, h2, h3, h4, h5, h6, hidx])
              · by_cases h7 : headWord node.data.label = "Stochastic"
                · exact mk (Series.stochK (jsOrNat node.data.config.kPeriod 14))
                    (by simp [generateExpression, hf, hi, h1, h2, h3, h4, h5, h6, h7, hidx])
                · by_cases h8 : headWord node.data.label = "ADX"
                  · exact mk (Series.adx (jsOrNat node.data.config.period 14))
                      (by simp [generateExpression, hf, hi, h1, h2, h3, h4, h5, h6, h7, h8, hidx])
                  · exfalso
                    simp [knownIndicatorName, h1, h2, h3, h4, h5, h6, h7, h8] at hn

/-- Witness for C7: in the crossover example graph, the Close price node
at offset 0 resolves to `Close[-1]` (reading bar `t`), and at offset 2 to
`Close[-3]` (reading bar `t - 2`). -/
theorem c7_offset_resolution_witness :
    (∃ s : Series,
      generateExpression c1Graph "n1" (some 0) = Expr.ref s 1 ∧
      1 ≤ 1 ∧
      ∀ (env : Series → Int → ℚ) (t : Int),
        evalExpr env t (generateExpression c1Graph "n1" (some 0)) =
          env s (t - 0)) ∧
    (∃ s : Series,
      generateExpression c1Graph "n1" (some 2) = Expr.ref s 3 ∧
      1 ≤ 3 ∧
      ∀ (env : Series → Int → ℚ) (t : Int),
        evalExpr env t (generateExpression c1Graph "n1" (some 2)) =
          env s (t - 2)) :=
  ⟨c7_offset_resolution c1Graph c1Node 0 (by decide) (Or.inl (by decide))
      (by decide),
   c7_offset_resolution c1Graph c1Node 2 (by decide) (Or.inl (by decide))
      (by decide)⟩

/-! ## C2: lookback wrapping

The claim reads the lookback wrapper as re-evaluating the base condition
with *all* bar offsets shifted by `s`.  The source's wrapper is a textual
replace of the substrings `[-1]` and `[-2]` only, so a reference at
offset ≥ 2 (index `[-3]` or deeper) is never shifted: the claim fails on
such nodes and holds exactly when every reference sits at index 1 or 2. -/

/-- Modelled from the claim's wording: shift every series reference `s`
bars further into the past ("all its bar offsets shifted by s"). -/
def specShiftExpr (s : Nat) : Expr → Expr
  | Expr.ref sr idx => Expr.ref sr (idx + s)
  | Expr.lit v => Expr.lit v

/-- Modelled from the claim's wording: the whole condition with every
series reference shifted by `s`. -/
def specShiftCond (s : Nat) : Cond → Cond
  | Cond.tru => Cond.tru
  | Cond.cmp op l r => Cond.cmp op (specShiftExpr s l) (specShiftExpr s r)
  | Cond.cAnd a b => Cond.cAnd (specShiftCond s a) (specShiftCond s b)
  | Cond.cOr a b => Cond.cOr (specShiftCond s a) (specShiftCond s b)
  | Cond.cNot a => Cond.cNot (specShiftCond s a)
  | Cond.anyRange n body => Cond.anyRange n (specShiftCond s body)

/-- Whether every reference of an expression sits at index 1 or 2 — the
only indices the textual lookback rewrite touches. -/
def exprShiftable : Expr → Bool
  | Expr.ref _ idx => decide (idx = 1 ∨ idx = 2)
  | Expr.lit _ => true

/-- Whether a condition is wrapper-free with all references at index 1
or 2 (i.e. bar offsets 0 and 1 only). -/
def condShiftable : Cond → Bool
  | Cond.tru => true
  | Cond.cmp _ l r => exprShiftable l && exprShiftable r
  | Cond.cAnd a b => condShiftable a && condShiftable b
  | Cond.cOr a b => condShiftable a && condShiftable b
  | Cond.cNot a => condShiftable a
  | Cond.anyRange _ _ => false

theorem evalExpr_lookShift_shiftable (env : Series → Int → ℚ) (t : Int)
    (sh : Nat) (e : Expr) (he : exprShiftable e = true) :
    evalExpr env t (lookShiftExpr sh e) = evalExpr env (t - sh) e := by
  cases e with
  | lit v => rfl
  | ref sr idx =>
    simp only [exprShiftable, decide_eq_true_eq] at he
    rcases he with h | h <;> subst h
    · show env sr (t + 1 - ((sh + 1 : Nat) : Int)) =
        env sr (t - sh + 1 - ((1 : Nat) : Int))
      congr 1
      push_cast
      ring
    · show env sr (t + 1 - ((sh + 2 : Nat) : Int)) =
        env sr (t - sh + 1 - ((2 : Nat) : Int))
      congr 1
      push_cast
      ring

/-- On a wrapper-free condition whose references all sit at index 1 or 2,
the textual lookback shift by `sh` is exactly evaluation `sh` bars
earlier. -/
theorem evalCondSh_shiftable (env : Series → Int → ℚ) (t : Int) :
    ∀ (c : Cond), condShiftable c = true →
    ∀ (sh : Nat), evalCondSh env t c sh = evalCond env (t - sh) c := by
  intro c
  induction c with
  | tru => intro _ _; rfl
  | cmp op l r =>
    intro hc sh
    simp only [condShiftable, Bool.and_eq_true] at hc
    show evalOp op (evalExpr env t (lookShiftExpr sh l))
        (evalExpr env t (lookShiftExpr sh r)) =
      evalOp op (evalExpr env (t - sh) (lookShiftExpr 0 l))
        (evalExpr env (t - sh) (lookShiftExpr 0 r))
    rw [lookShiftExpr_zero, lookShiftExpr_zero,
      evalExpr_lookShift_shiftable env t sh l hc.1,
      evalExpr_lookShift_shiftable env t sh r hc.2]
  | cAnd a b iha ihb =>
    intro hc sh
    simp only [condShiftable, Bool.and_eq_true] at hc
    show (evalCondSh env t a sh && evalCondSh env t b sh) =
      (evalCondSh env (t - sh) a 0 && evalCondSh env (t - sh) b 0)
    rw [iha hc.1 sh, ihb hc.2 sh]
    rfl
  | cOr a b iha ihb =>
    intro hc sh
    simp only [condShiftable, Bool.and_eq_true] at hc
    show (evalCondSh env t a sh || evalCondSh env t b sh) =
      (evalCondSh env (t - sh) a 0 || evalCondSh env (t - sh) b 0)
    rw [iha hc.1 sh, ihb hc.2 sh]
    rfl
  | cNot a iha =>
    intro hc sh
    simp only [condShiftable] at hc
    show (!evalCondSh env t a sh) = (!evalCondSh env (t - sh) a 0)
    rw [iha hc sh]
    rfl
  | anyRange n body ih =>
    intro hc sh
    simp [condShiftable] at hc

/-- The C2 counterexample node: a Close comparison at bar offset 2
(emitted as `Close[-3]`) with lookback 3. -/
def c2Node : Node :=
  { id := "n2", type := "price",
    data := { label := "Close", comparison := some ">",
              compareValue := some 10, barOffset := some 2,
              lookback := some 3 } }

/-- The graph of the C2 counterexample. -/
def c2Graph : Graph :=
  { nodes := [c2Node, { id := "b2", type := "action",
                        data := { label := "Buy" } }],
    edges := [{ source := "n2", target := "b2" }] }

/-- An environment where `Close` is 20 at bar 2 and 5 elsewhere. -/
def c2Env : Series → Int → ℚ := fun s t =>
  if s = Series.sClose then (if t = 2 then 20 else 5) else 0

/-- Counterexample to C2: at bar offset 2 the emitted index `[-3]` is not
rewritten by the lookback wrapper, so at bar 5 the compiled condition is
false although the claim's semantics — the base condition with all
offsets shifted by some `s < 3` — is true (shift 1 reads `Close` at
bar 2 = 20 > 10). -/
theorem c2_lookback_counterexample :
    evalCond c2Env 5 (genCondTop c2Graph "n2") = false ∧
    ((List.range 3).any fun s =>
      evalCond c2Env 5
        (specShiftCond s (priceIndicatorCond c2Graph "n2" c2Node))) = true := by
  decide

/-- C2 (amended).  For a Price/Indicator node with lookback `N > 0`
whose lookback-free condition only references indices 1 and 2 (bar
offsets 0 and 1 — which the textual `[-1]`/`[-2]` rewrite can shift), the
compiled condition is true at bar `t` iff the lookback-free condition
holds at some bar `t - s` with `s < N`; offsets ≥ 2 are excluded because
the rewrite leaves their indices unshifted. -/
theorem c2_lookback_amended (g : Graph) (node : Node)
    (env : Series → Int → ℚ) (t : Int) (N : Int)
    (hf : findNode g node.id = some node)
    (htype : node.type = "indicator" ∨ node.type = "price")
    (hN : jsOrInt node.data.lookback 0 = N)
    (hpos : 0 < N)
    (hsh : condShiftable (priceIndicatorCond g node.id node) = true) :
    evalCond env t (genCondTop g node.id) =
      ((List.range N.toNat).any fun s =>
        evalCond env (t - s) (priceIndicatorCond g node.id node)) := by
  rw [genCondTop_priceIndicator g node hf htype, hN, if_pos hpos,
    wrapWithLookback, if_neg (by omega)]
  show (List.range N.toNat).any
      (fun i => evalCondSh env t (priceIndicatorCond g node.id node) i) = _
  congr 1
  funext s
  exact evalCondSh_shiftable env t _ hsh s

/-- The C2 witness node: offset-0 Close comparison with lookback 3. -/
def c2wNode : Node :=
  { id := "w", type := "price",
    data := { label := "Close", comparison := some ">",
              compareValue := some 10, lookback := some 3 } }

/-- The witness graph for the amended C2. -/
def c2wGraph : Graph :=
  { nodes := [c2wNode, { id := "b3", type := "action",
                         data := { label := "Buy" } }],
    edges := [{ source := "w", target := "b3" }] }

/-- An environment where `Close` is 20 at bar 3 and 5 elsewhere. -/
def c2wEnv : Series → Int → ℚ := fun s t =>
  if s = Series.sClose then (if t = 3 then 20 else 5) else 0

/-- Witness for the amended C2: with lookback 3 at bar 5, the compiled
condition agrees with "base holds at bar 5, 4 or 3" and is true because
`Close > 10` held two bars back (bar 3). -/
theorem c2_lookback_amended_witness :
    evalCond c2wEnv 5 (genCondTop c2wGraph "w") =
      ((List.range 3).any fun s =>
        evalCond c2wEnv (5 - s) (priceIndicatorCond c2wGraph "w" c2wNode)) ∧
    evalCond c2wEnv 5 (genCondTop c2wGraph "w") = true := by
  have h := c2_lookback_amended c2wGraph c2wNode c2wEnv 5 3
    (by decide) (by decide) (by decide) (by decide) (by decide)
  exact ⟨h, h.trans (by decide)⟩

/-! ## C6: the trailing stop is a monotonic ratchet while the position
stays open -/

/-- The exit rules of a generation result (empty when no class was
emitted). -/
def stratExitRules : GenResult → List ExitRule
  | GenResult.strategy s => s.exitRules
  | _ => []

/-- One emitted trailing-stop bar never lowers the stored level as long
as the position stays open: the level is raised to the candidate exactly
when the candidate exceeds it. -/
theorem trailingStepRule_mono (r : ExitRule) (close atrVal : ℚ)
    (st : ExecPos)
    (h : (trailingStepRule r close atrVal st).isOpen = true) :
    st.trailing ≤ (trailingStepRule r close atrVal st).trailing := by
  unfold trailingStepRule at h ⊢
  by_cases ho : st.isOpen = true
  · rw [if_pos ho] at h ⊢
    cases hc : trailingCandidate r close atrVal with
    | none =>
      exact le_refl _
    | some cand =>
      rw [hc] at h
      simp only [] at h ⊢
      by_cases h2 : close ≤ (if cand > st.trailing then cand else st.trailing)
      · rw [if_pos h2] at h
        exact absurd h (by simp)
      · rw [if_neg h2] at h ⊢
        by_cases h3 : cand > st.trailing
        · rw [if_pos h3]
          exact le_of_lt h3
        · rw [if_neg h3]
  · rw [if_neg ho] at h ⊢

theorem trailStates_head (r : ExitRule) (st : ExecPos)
    (bars : List (ℚ × ℚ)) : (trailStates r st bars).head? = some st := by
  cases bars <;> rfl

/-- C6.  For every compiled trailing-stop exit rule and every synthetic
path of `(close, atr)` bars, the stored trailing level is monotonically
non-decreasing across consecutive bars whenever the position is (still)
open at the later bar: each bar a candidate stop is computed from the
current close and the stored level is raised only when the candidate
exceeds it — even when price retraces below a previous high. -/
theorem c6_trailing_monotone (g : Graph) (r : ExitRule) (st : ExecPos)
    (bars : List (ℚ × ℚ))
    (_hr : r ∈ stratExitRules (generateStrategyCode g))
    (_htr : r.isTrailing = true) :
    List.Chain' (fun a b => b.isOpen = true → a.trailing ≤ b.trailing)
      (trailStates r st bars) := by
  induction bars generalizing st with
  | nil => simp [trailStates]
  | cons b bs ih =>
    rw [trailStates]
    refine List.chain'_cons'.mpr ⟨?_, ih _⟩
    intro y hy
    rw [trailStates_head] at hy
    cases hy
    exact fun hopen => trailingStepRule_mono r b.1 b.2 st hopen

/-- A 5% trailing-stop exit node. -/
def c6ExitNode : Node :=
  { id := "x1", type := "exit",
    data := { label := "Trailing Stop",
              config := { type := some "percent", value := some 5 } } }

/-- A strategy graph with the trailing-stop exit and a Buy action. -/
def c6Graph : Graph :=
  { nodes := [c6ExitNode,
      { id := "b6", type := "action", data := { label := "Buy" } }],
    edges := [] }

/-- A price path that rallies then retraces below its previous high. -/
def c6Bars : List (ℚ × ℚ) := [(100, 0), (110, 0), (105, 0), (90, 0)]

/-- Witness for C6: the 5% trailing rule compiled from `c6Graph`, run
from an open position over the retracing path, keeps its stored level
non-decreasing while open. -/
theorem c6_trailing_monotone_witness :
    List.Chain' (fun a b => b.isOpen = true → a.trailing ≤ b.trailing)
      (trailStates (ExitRule.trailingPercent 5)
        { trailing := 0, entry := 100, isOpen := true } c6Bars) :=
  c6_trailing_monotone c6Graph (ExitRule.trailingPercent 5)
    { trailing := 0, entry := 100, isOpen := true } c6Bars
    (by decide) (by decide)

/-! ## C8: the indicator-requirement list is not deduplicated

`indicatorInits` maps over the indicator nodes with no deduplication, so
two nodes requiring the same indicator contribute two identical `init()`
lines; exit-rule ATR needs are tracked in a *separate* `self.exit_atr`
slot (one line, last node's period wins), never merged with the
condition indicators. -/

theorem count_filterMap_eq_countP {α β : Type} [DecidableEq β]
    (f : α → Option β) (l : List α) (e : β) :
    (l.filterMap f).count e = l.countP (fun a => f a = some e) := by
  induction l with
  | nil => rfl
  | cons a l ih =>
    cases hfa : f a with
    | none => simp [List.filterMap_cons, hfa, List.countP_cons, ih]
    | some b =>
      simp [List.filterMap_cons, hfa, List.countP_cons, List.count_cons, ih]

/-- Counting `exitAtr` entries in `exitInits`: exactly one when some exit
node uses the ATR basis, carrying the last such node's period. -/
theorem exitInits_exitAtr_count (ns : List Node) (p : Nat) :
    (exitInits ns).count (InitEntry.exitAtr p) =
      (if (exitAtrState ns).1 = true ∧ (exitAtrState ns).2 = p ∧ ns ≠ []
       then 1 else 0) := by
  have hbase : (InitEntry.entryPriceInit ::
      (ns.filter (fun n => n.data.label = "Trailing Stop")).map
        (fun _ => InitEntry.trailingStopInit)).count (InitEntry.exitAtr p)
      = 0 := by
    simp [List.count_eq_zero, List.mem_cons, List.mem_map]
  unfold exitInits
  by_cases hE : ns.isEmpty
  · rw [if_pos hE]
    have hnil : ns = [] := List.isEmpty_iff.mp hE
    simp [hnil]
  · rw [if_neg hE]
    have hne : ns ≠ [] := by simpa [List.isEmpty_iff] using hE
    by_cases hA : (exitAtrState ns).1 = true
    · rw [if_pos hA]
      rw [List.count_cons, hbase]
      by_cases hp : (exitAtrState ns).2 = p
      · simp [hp, hA, hne]
      · simp [hp, hA, hne]
    · rw [if_neg hA]
      rw [hbase]
      simp [hA]

/-- Two distinct indicator nodes requiring the same RSI(14). -/
def c8Graph : Graph :=
  { nodes :=
      [{ id := "i1", type := "indicator",
         data := { label := "RSI 14", config := { period := some 14 } } },
       { id := "i2", type := "indicator",
         data := { label := "RSI 14", config := { period := some 14 } } },
       { id := "b8", type := "action", data := { label := "Buy" } }],
    edges := [] }

/-- Counterexample to C8: two nodes requiring RSI(14) contribute *two*
entries to the emitted init list — the list is not deduplicated. -/
theorem c8_dedup_counterexample :
    (stratInits (generateStrategyCode c8Graph)).count (InitEntry.rsi 14)
      = 2 := by
  decide

/-- C8 (amended).  The emitted init list is the indicator inits (one per
indicator node with a recognized name, in node order, with *no*
deduplication: an entry's multiplicity equals the number of nodes
requiring it) followed by the exit inits; exit-rule ATR needs are *not*
merged into the indicator list but produce a single separate `exit_atr`
entry whose period is the last ATR-basis exit node's (earlier periods are
overwritten). -/
theorem c8_inits_amended (g : Graph) (e : InitEntry) (p : Nat)
    (hne : g.nodes ≠ [])
    (hact : g.nodes.filter (fun n => n.type = "action") ≠ []) :
    stratInits (generateStrategyCode g) =
      indicatorInits g ++ exitInits (g.nodes.filter (fun n => n.type = "exit"))
    ∧ (indicatorInits g).count e =
      (g.nodes.filter (fun n => n.type = "indicator")).countP
        (fun n => indicatorInitOf n = some e)
    ∧ (exitInits (g.nodes.filter (fun n => n.type = "exit"))).count
        (InitEntry.exitAtr p) =
      (if (exitAtrState (g.nodes.filter (fun n => n.type = "exit"))).1 = true ∧
          (exitAtrState (g.nodes.filter (fun n => n.type = "exit"))).2 = p ∧
          g.nodes.filter (fun n => n.type = "exit") ≠ []
       then 1 else 0) := by
  refine ⟨?_, ?_, ?_⟩
  · rw [generateStrategyCode]
    rw [if_neg (by simp [List.isEmpty_iff, hne])]
    rw [if_neg (by simp [List.isEmpty_iff, hact])]
    rfl
  · exact count_filterMap_eq_countP indicatorInitOf _ e
  · exact exitInits_exitAtr_count _ p

/-- A graph whose exits need ATR with two different periods (7 then 21)
next to an RSI(14) condition indicator. -/
def c8wGraph : Graph :=
  { nodes :=
      [{ id := "i1", type := "indicator",
         data := { label := "RSI 14", config := { period := some 14 } } },
       { id := "x7", type := "exit",
         data := { label := "Stop Loss",
                   config := { type := some "atr", value := some 2,
                               period := some 7 } } },
       { id := "x21", type := "exit",
         data := { label := "Take Profit",
                   config := { type := some "atr", value := some 3,
                               period := some 21 } } },
       { id := "b9", type := "action", data := { label := "Buy" } }],
    edges := [] }

/-- Witness for the amended C8 at a concrete graph where two exit rules
need ATR with different periods: the single `exit_atr` entry carries the
last period (21). -/
theorem c8_inits_amended_witness :
    stratInits (generateStrategyCode c8wGraph) =
      indicatorInits c8wGraph ++
        exitInits (c8wGraph.nodes.filter (fun n => n.type = "exit"))
    ∧ (indicatorInits c8wGraph).count (InitEntry.rsi 14) =
      (c8wGraph.nodes.filter (fun n => n.type = "indicator")).countP
        (fun n => indicatorInitOf n = some (InitEntry.rsi 14))
    ∧ (exitInits (c8wGraph.nodes.filter (fun n => n.type = "exit"))).count
        (InitEntry.exitAtr 21) =
      (if (exitAtrState (c8wGraph.nodes.filter (fun n => n.type = "exit"))).1 = true ∧
          (exitAtrState (c8wGraph.nodes.filter (fun n => n.type = "exit"))).2 = 21 ∧
          c8wGraph.nodes.filter (fun n => n.type = "exit") ≠ []
       then 1 else 0) :=
  c8_inits_amended c8wGraph (InitEntry.rsi 14) 21 (by decide) (by decide)

/-! ## C10: buy orders only while flat, sell orders only while holding -/

/-- With a position open, the emitted buy chain is a no-op: whichever
branch fires, its body is wrapped in `if not self.position:`. -/
theorem runChain_buySection_held (env : Series → Int → ℚ) (t : Int)
    (rules : List (Cond × SizeLogic)) (st : RunState)
    (hpos : st.position = true) :
    runChain env t (buySection rules) st = st := by
  induction rules with
  | nil => rfl
  | cons r rs ih =>
    rw [buySection, List.map_cons, runChain]
    by_cases hc : evalCond env t r.1 = true
    · rw [if_pos hc]
      show execStmt env t (NextStmt.guardFlat _) st = st
      rw [execStmt, if_pos hpos]
    · rw [if_neg hc]
      exact ih

/-- While flat, the emitted sell chain is a no-op: whichever branch
fires, its body is wrapped in `if self.position:`. -/
theorem runChain_sellSection_flat (env : Series → Int → ℚ) (t : Int)
    (rules : List (Cond × SizeLogic)) (st : RunState)
    (hpos : st.position = false) :
    runChain env t (sellSection rules) st = st := by
  induction rules with
  | nil => rfl
  | cons r rs ih =>
    rw [sellSection, List.map_cons, runChain]
    by_cases hc : evalCond env t r.1 = true
    · rw [if_pos hc]
      show execStmt env t (NextStmt.guardHeld _) st = st
      rw [execStmt, hpos]
      simp
    · rw [if_neg hc]
      exact ih

/-- C10.  In the generated `next()` body, every buy order sits under the
emitted `if not self.position:` guard and every sell order under
`if self.position:`: running the buy section with a position open
executes no order at all (state unchanged, no ops), and running the sell
section while flat likewise — the compiler itself embeds the
flat/holding eligibility check in the emitted code. -/
theorem c10_position_guards (g : Graph) (env : Series → Int → ℚ) (t : Int)
    (entry : ℚ) :
    (runChain env t (buySection (stratBuyRules (generateStrategyCode g)))
        { position := true, entry := entry, ops := [] }).ops = []
    ∧ (runChain env t (sellSection (stratSellRules (generateStrategyCode g)))
        { position := false, entry := entry, ops := [] }).ops = [] := by
  constructor
  · rw [runChain_buySection_held env t _ _ rfl]
  · rw [runChain_sellSection_flat env t _ _ rfl]

/-! ## Fuel adequacy

The source's recursion needs no fuel: each recursive call adds an
existing, unvisited node id to the path's visited set, so the number of
graph node ids outside `visited` strictly decreases.  The following
lemmas prove the explicit fuel parameter faithful: any two fuels
exceeding that count give the same result, so `stdFuel` (node count + 1)
behaves as the source's unbounded recursion. -/

/-- How many node-id occurrences are not yet in `visited` — an upper
bound on the remaining recursion depth. -/
def remainingIds (g : Graph) (visited : List String) : Nat :=
  ((g.nodes.map Node.id).filter (fun i => !(visited.contains i))).length

theorem length_filter_ne_lt {l : List String} {a : String} (h : a ∈ l) :
    (l.filter (fun x => !(x == a))).length < l.length := by
  induction l with
  | nil => cases h
  | cons b bs ih =>
    rw [List.filter_cons]
    by_cases hb : b = a
    · subst hb
      rw [show (!(b == b)) = false by simp]
      calc (bs.filter (fun x => !(x == b))).length
          ≤ bs.length := List.length_filter_le _ _
        _ < (b :: bs).length := by simp [List.length_cons, Nat.lt_succ_self]
    · have hbb : (!(b == a)) = true := by simp [hb]
      rw [hbb]
      simp only [if_pos rfl, List.length_cons]
      have hmem : a ∈ bs := by
        rcases List.mem_cons.mp h with h1 | h1
        · exact absurd h1.symm hb
        · exact h1
      exact Nat.succ_lt_succ (ih hmem)

theorem mem_of_getLast?_eq {α : Type} {l : List α} {a : α}
    (h : l.getLast? = some a) : a ∈ l := by
  induction l with
  | nil => simp [List.getLast?] at h
  | cons b bs ih =>
    cases bs with
    | nil =>
      simp only [List.getLast?_singleton, Option.some.injEq] at h
      simp [h]
    | cons c cs =>
      rw [List.getLast?_cons_cons] at h
      exact List.mem_cons_of_mem b (ih h)

theorem findNode_mem_ids (g : Graph) (nodeId : String) (node : Node)
    (h : findNode g nodeId = some node) : nodeId ∈ g.nodes.map Node.id := by
  unfold findNode at h
  have hmem := mem_of_getLast?_eq h
  rw [List.mem_filter] at hmem
  rcases hmem with ⟨hm, hp⟩
  simp only [decide_eq_true_eq] at hp
  rw [List.mem_map]
  exact ⟨node, hm, hp⟩

theorem remainingIds_cons_lt (g : Graph) (nodeId : String)
    (visited : List String)
    (hmem : nodeId ∈ g.nodes.map Node.id)
    (hcont : visited.contains nodeId = false) :
    remainingIds g (nodeId :: visited) < remainingIds g visited := by
  unfold remainingIds
  have hstep : ((g.nodes.map Node.id).filter
        (fun i => !((nodeId :: visited).contains i))) =
      (((g.nodes.map Node.id).filter (fun i => !(visited.contains i))).filter
        (fun i => !(i == nodeId))) := by
    rw [List.filter_filter]
    apply List.filter_congr
    intro i _
    show (!((nodeId :: visited).contains i)) =
      ((!(i == nodeId)) && (!(visited.contains i)))
    rw [List.contains_cons]
    cases h1 : (i == nodeId) <;> cases h2 : visited.contains i <;>
      simp [h1, h2]
  rw [hstep]
  apply length_filter_ne_lt
  rw [List.mem_filter]
  refine ⟨hmem, ?_⟩
  rw [hcont]
  rfl

/-- Fuel irrelevance: any two fuel values exceeding the number of
not-yet-visited node ids produce the same condition, so the bounded
recursion agrees with the source's unbounded one wherever the latter
terminates — which the visited-set discipline guarantees. -/
theorem generateNodeCondition_fuel_irrel (g : Graph) :
    ∀ (f₁ f₂ : Nat) (nodeId : String) (visited : List String),
    remainingIds g visited < f₁ → remainingIds g visited < f₂ →
    generateNodeCondition g f₁ nodeId visited =
      generateNodeCondition g f₂ nodeId visited := by
  intro f₁
  induction f₁ with
  | zero =>
    intro f₂ nodeId visited h1 h2
    omega
  | succ n₁ ih =>
    intro f₂ nodeId visited h1 h2
    cases f₂ with
    | zero => omega
    | succ n₂ =>
      rw [generateNodeCondition, generateNodeCondition]
      by_cases hv : visited.contains nodeId = true
      · simp only [if_pos hv]
      · simp only [if_neg hv]
        cases hfn : findNode g nodeId with
        | none => rfl
        | some node =>
          by_cases hty : node.type = "indicator" ∨ node.type = "price"
          · simp only [if_pos hty]
          · simp only [if_neg hty]
            by_cases hl : node.type = "logic"
            · simp only [if_pos hl]
              have hcont : visited.contains nodeId = false := by
                simpa using hv
              have hlt := remainingIds_cons_lt g nodeId visited
                (findNode_mem_ids g nodeId node hfn) hcont
              have hfun :
                  (fun p => generateNodeCondition g n₁ p (nodeId :: visited)) =
                  (fun p => generateNodeCondition g n₂ p (nodeId :: visited)) :=
                funext (fun p =>
                  ih n₂ p (nodeId :: visited) (by omega) (by omega))
              by_cases hnot : node.data.label = "NOT"
              · simp only [if_pos hnot]
                cases parentsOf g nodeId with
                | nil => rfl
                | cons p ps =>
                  exact congrArg Cond.cNot (congrFun hfun p)
              · simp only [if_neg hnot]
                cases hps : parentsOf g nodeId with
                | nil => rfl
                | cons p ps =>
                  exact congrArg
                    (fun f => joinConds (decide (node.data.label = "AND"))
                      (List.map f (p :: ps))) hfun
            · simp only [if_neg hl]

end Wick
